import Mathlib

/-!
The tape-image encoder of `src/mktap.c`.

A shallow embedding of `mktap.c`.  Bytes are `Fin 256`; the C `int` arguments
(`address`, `type`) and the `off_t` file size are `Int`; every conversion to
`unsigned char` is an explicit reduction modulo 256.  The system calls
(`open`, `fstat`, `read`, `write`) are driven by a table of outcomes, `Sys`,
so that both the successful run and every failing run can be stated.
-/

namespace Mktap

/-! ## Data model -/

/-- An 8-bit byte: the unit of the input file, of the name and of the output. -/
abbrev Byte := Fin 256

/-- Conversion of a C integer to `unsigned char`: the value modulo 256. -/
def uchar (x : Int) : Byte := ⟨(x % 256).toNat, by omega⟩

/-- The value of the C expression `(unsigned char)x` inside a larger expression:
the byte `x` modulo 256, promoted back to `int`. -/
def castUChar (x : Int) : Int := ((uchar x).val : Int)

/-- The macro `INPUT_MAX_SIZE` (line 42): 48 KiB. -/
def INPUT_MAX_SIZE : Nat := 49152

/-- The exit status `EXIT_SUCCESS` of `stdlib.h`. -/
def EXIT_SUCCESS : Int := 0

/-- The exit status `EXIT_FAILURE` of `stdlib.h`. -/
def EXIT_FAILURE : Int := 1

/-- Outcomes of the system calls of one run.  `write i` describes the `i`-th
call of `write(2)` (counted from 0): `none` when it transfers all the bytes it
is given, `some r` when it does not (an error, or a short count), in which case
the file receives the first `r` bytes of the buffer, and never all of them. -/
structure Sys where
  /-- Whether `open(input, O_RDONLY)` returns a descriptor. -/
  openInput : Bool
  /-- Whether `fstat` succeeds. -/
  fstat : Bool
  /-- Whether `read` returns the whole file. -/
  read : Bool
  /-- Whether `open(output, O_WRONLY | O_CREAT | O_TRUNC, 0644)` returns a descriptor. -/
  openOutput : Bool
  /-- The fate of each `write` call, by its index. -/
  write : Nat → Option Nat

/-- The run in which every system call succeeds. -/
def okSys : Sys :=
  { openInput := true, fstat := true, read := true, openOutput := true,
    write := fun _ => none }

/-- The state the writing part of `mktap` works on: the content of the output
file, the number of `write` calls issued so far, and the local variable
`checksum`. -/
structure Tape where
  /-- Bytes the output file holds. -/
  data : List Byte
  /-- Number of `write` calls issued. -/
  calls : Nat
  /-- The local variable `checksum` of `mktap`. -/
  checksum : Byte
deriving DecidableEq

/-- The diagnostics `mktap` prints on standard error. -/
inductive Diag where
  /-- "Error: cannot open ..." (line 54). -/
  | cannotOpen
  /-- `perror("stat")` (line 59). -/
  | stat
  /-- "Error: the input file size is invalid" (line 65). -/
  | invalidSize
  /-- `perror("read")` (line 71). -/
  | read
  /-- `perror("open")` (line 81). -/
  | openOut
deriving DecidableEq

/-- What one run of `mktap` leaves behind: its return value, the diagnostic it
printed, the content of the output file (`none` when the output was never
opened, so that it is as it was before the run), and the number of `write`
calls it issued. -/
structure Outcome where
  /-- The value `mktap` returns. -/
  status : Int
  /-- The diagnostic printed, if any. -/
  stderr : Option Diag
  /-- The content of the output file, `none` when it was not opened. -/
  file : Option (List Byte)
  /-- Number of `write` calls issued. -/
  writes : Nat
deriving DecidableEq

/-! ## Library functions -/

/-- The function `toupper` of `ctype.h` in the "C" locale (the program never
calls `setlocale`): the letters `a`..`z` are mapped to `A`..`Z`, every other
character is returned unchanged. -/
def toupper (c : Byte) : Byte :=
  if h : 97 ≤ c.val ∧ c.val ≤ 122 then ⟨c.val - 32, by omega⟩ else c

/-- The call `snprintf(__name, sizeof(__name), "%-10s", name)` (line 108), as the
10 characters of `__name` before its terminating NUL: the conversion `%-10s`
left-justifies `name` in a field of at least 10 characters, padding with spaces
on the right, and `snprintf` keeps the `sizeof(__name) - 1 = 10` first characters
of the result.  `name` is the C string without its NUL. -/
def snprintf_name (name : List Byte) : List Byte :=
  (name ++ List.replicate (10 - name.length) (32 : Byte)).take 10

/-! ## The writer -/

/-- The function `__write` (lines 22-35).  `sum` tells whether the `checksum`
argument is `&checksum` (`true`) or `NULL` (`false`).  The bytes of `buf` are
folded into the checksum first, then `write` is called; the result is `-1`
unless `write` transferred the whole buffer. -/
def __write (sys : Sys) (t : Tape) (buf : List Byte) (sum : Bool) : Int × Tape :=
  let c := if sum then buf.foldl (fun acc b => acc ^^^ b) t.checksum else t.checksum
  match sys.write t.calls with
  | none => ((buf.length : Int), { data := t.data ++ buf, calls := t.calls + 1, checksum := c })
  | some r =>
    (-1, { data := t.data ++ buf.take (min r (buf.length - 1)), calls := t.calls + 1,
           checksum := c })

/-- The function `__write1` (lines 37-40): `__write` on a buffer of one byte. -/
def __write1 (sys : Sys) (t : Tape) (data : Byte) (sum : Bool) : Int × Tape :=
  __write sys t [data] sum

/-- The macro `WRITE` (lines 85-89): `__write` the first `size` bytes of `buf`,
and leave `mktap` (`Except.error`) when the result is negative.  `size` is the value
of the pasted expression `(size_t)__size`: `(size_t)sizeof(__name) - 1 = 10` at line
111 and `(size_t)st.st_size` at line 148. -/
def WRITE (sys : Sys) (buf : List Byte) (size : Int) (sum : Bool) (t : Tape) :
    Except Tape Tape :=
  let r := __write sys t (buf.take size.toNat) sum
  if r.1 < 0 then .error r.2 else .ok r.2

/-- The macro `WRITE1` (lines 91-95).  The macro pastes the text of its argument
after a cast, `(unsigned char)__data`, without parentheses around `__data`, so the
cast binds to the first operand of the argument and not to the whole of it:
`WRITE1(ofd, (x & 0xff00) >> 8, ..)` passes `(unsigned char)(x & 0xff00) >> 8`.
Here `data` is the value of the pasted expression, which each call in
`mktap_blocks` writes out with `castUChar`; it is converted to the `unsigned char`
parameter of `__write1`, and `mktap` is left (`Except.error`) when the result is
negative. -/
def WRITE1 (sys : Sys) (data : Int) (sum : Bool) (t : Tape) : Except Tape Tape :=
  let r := __write1 sys t (uchar data) sum
  if r.1 < 0 then .error r.2 else .ok r.2

/-- Lines 97-151 of `mktap`: the header block, then the data block.  `ibuf` is
the input buffer after `read`, `st_size` the size of the input file.  The argument
of each `WRITE1` is the expression the macro produces, cast included. -/
def mktap_blocks (sys : Sys) (ibuf name : List Byte) (address type st_size : Int)
    (t : Tape) : Except Tape Tape := do
  -- Length
  let t ← WRITE1 sys (castUChar 19) false t
  let t ← WRITE1 sys (castUChar 0) false t
  -- Flag
  let t ← WRITE1 sys (castUChar 0) true t
  -- Type
  let t ← WRITE1 sys (castUChar type) true t
  -- Filename
  let __name := (snprintf_name name).map toupper
  let t ← WRITE sys __name 10 true t
  -- Length of data block
  let t ← WRITE1 sys (Int.land (castUChar st_size) 0xff) true t
  let t ← WRITE1 sys (Int.shiftRight (castUChar (Int.land st_size 0xff00)) 8) true t
  -- Parameter 1
  let t ←
    if type = 0 then do
      let t ← WRITE1 sys (castUChar 0) true t
      WRITE1 sys (castUChar 128) true t
    else if type = 3 then do
      let t ← WRITE1 sys (Int.land (castUChar address) 0xff) true t
      WRITE1 sys (Int.shiftRight (castUChar (Int.land address 0xff00)) 8) true t
    else do
      let t ← WRITE1 sys (castUChar 0) true t
      WRITE1 sys (castUChar 128) true t
  -- Parameter 2
  let t ← WRITE1 sys (castUChar 0) true t
  let t ← WRITE1 sys (castUChar 128) true t
  -- Checksum
  let t ← WRITE1 sys (castUChar (t.checksum.val : Int)) false t
  let t := { t with checksum := 0 }
  -- Length
  let t ← WRITE1 sys (Int.land (castUChar (st_size + 2)) 0xff) false t
  let t ← WRITE1 sys (Int.shiftRight (castUChar (Int.land (st_size + 2) 0xff00)) 8) false t
  -- Flag
  let t ← WRITE1 sys (castUChar 255) true t
  -- Data
  let t ← WRITE sys ibuf st_size true t
  -- Checksum
  WRITE1 sys (castUChar (t.checksum.val : Int)) false t

/-- The function `mktap` (lines 44-159).  `input` is the content of the input
file, `name` the characters of the C string `name`. -/
def mktap (sys : Sys) (input name : List Byte) (address type : Int) : Outcome :=
  if sys.openInput = false then
    { status := EXIT_FAILURE, stderr := some .cannotOpen, file := none, writes := 0 }
  else if sys.fstat = false then
    { status := EXIT_FAILURE, stderr := some .stat, file := none, writes := 0 }
  else
    let st_size : Int := input.length
    if st_size = 0 ∨ st_size > INPUT_MAX_SIZE ∨ address + st_size > 65535 then
      { status := EXIT_FAILURE, stderr := some .invalidSize, file := none, writes := 0 }
    else if sys.read = false then
      { status := EXIT_FAILURE, stderr := some .read, file := none, writes := 0 }
    else
      let ibuf : List Byte := input ++ List.replicate (INPUT_MAX_SIZE - input.length) 0
      if sys.openOutput = false then
        { status := EXIT_FAILURE, stderr := some .openOut, file := none, writes := 0 }
      else
        match mktap_blocks sys ibuf name address type st_size
            { data := [], calls := 0, checksum := 0 } with
        | .error t =>
          { status := EXIT_FAILURE, stderr := none, file := some t.data, writes := t.calls }
        | .ok t =>
          { status := EXIT_SUCCESS, stderr := none, file := some t.data, writes := t.calls }

/-! ## Closed form of a successful run -/

/-- The two bytes of parameter 1 that lines 117-129 write, in order.  For type 3
the first is the low byte of `address` and the second is 0: line 125 passes
`(unsigned char)(address & 0xff00) >> 8`, a byte shifted right by 8. -/
def param1 (address type : Int) : Byte × Byte :=
  if type = 0 then (uchar 0, uchar 128)
  else if type = 3 then (uchar address, 0)
  else (uchar 0, uchar 128)

/-- The 18 checksummed bytes of the header block, flag to parameter 2, as lines
101-133 write them.  The data length is written as the low byte of `st_size`
followed by 0: line 115 passes `(unsigned char)(st.st_size & 0xff00) >> 8`. -/
def headerBody (name : List Byte) (address type st_size : Int) : List Byte :=
  [uchar 0, uchar type] ++ (snprintf_name name).map toupper ++
    [uchar st_size, 0, (param1 address type).1, (param1 address type).2, uchar 0, uchar 128]

/-- The bytes a run of `mktap` without I/O failure leaves in the output file, in
closed form (`mktap_okSys` proves that they are the output).  The length of the
data block is written as the low byte of `st_size + 2` followed by 0: line 142
passes `(unsigned char)((st.st_size + 2) & 0xff00) >> 8`. -/
def image (input name : List Byte) (address type : Int) : List Byte :=
  [uchar 19, uchar 0] ++ headerBody name address type input.length ++
    [(headerBody name address type input.length).foldl (fun acc b => acc ^^^ b) 0] ++
    [uchar ((input.length : Int) + 2), 0, uchar 255] ++ input ++
    [input.foldl (fun acc b => acc ^^^ b) (uchar 255)]

/-- The size test of line 64, on the length of the input file. -/
def SizeInvalid (input : List Byte) (address : Int) : Prop :=
  (input.length : Int) = 0 ∨ (input.length : Int) > INPUT_MAX_SIZE ∨
    address + (input.length : Int) > 65535

instance (input : List Byte) (address : Int) : Decidable (SizeInvalid input address) := by
  unfold SizeInvalid; infer_instance

/-! ## Requests and the layout of the image -/

/-- A valid request (spec section 3): a payload of 1 to 49152 bytes, a 16-bit
load address with `load_address + len(payload) <= 65535`, a type in 0..3 and a
name of at most 10 characters. -/
def ValidRequest (payload name : List Byte) (address type : Int) : Prop :=
  1 ≤ payload.length ∧ payload.length ≤ 49152 ∧ 0 ≤ address ∧
    address + (payload.length : Int) ≤ 65535 ∧ 0 ≤ type ∧ type ≤ 3 ∧ name.length ≤ 10

instance (payload name : List Byte) (address type : Int) :
    Decidable (ValidRequest payload name address type) := by
  unfold ValidRequest; infer_instance

/-- The XOR of a sequence of bytes, starting from `init`. -/
def xorFrom (init : Byte) (bytes : List Byte) : Byte :=
  bytes.foldl (fun acc b => acc ^^^ b) init

/-- The outcome of a run that succeeded and left `out` in the output file: the 17
`write` calls of lines 97-151 were issued and nothing was printed. -/
def success (out : List Byte) : Outcome :=
  { status := EXIT_SUCCESS, stderr := none, file := some out, writes := 17 }

/-- The outcome of a run refused by the size test of line 64: the diagnostic is
printed and the output file is not opened. -/
def rejected : Outcome :=
  { status := EXIT_FAILURE, stderr := some Diag.invalidSize, file := none, writes := 0 }

/-- The value of a little-endian 16-bit field, from its low and its high byte. -/
def le16 (lo hi : Byte) : Nat := lo.val + 256 * hi.val

/-- What a reader of the image recovers: the type, the name field and the
payload. -/
structure Decoded where
  /-- The type byte, as a number. -/
  type : Nat
  /-- The 10 bytes of the name field. -/
  name : List Byte
  /-- The bytes of the data block between its flag and its checksum. -/
  payload : List Byte
deriving DecidableEq

/-- A reader of the image that follows the layout of spec section 6: the type is
the byte at offset 3, the name the bytes at offsets 4..13, the data length `len`
the little-endian field at offsets 14..15; the data block starts at offset 21 with
its own length field, which must be `len + 2`, then its flag, which must be
`0xFF`, and the payload is the `len` bytes after the flag.  An image too short for
this layout is refused. -/
def decode (img : List Byte) : Option Decoded := do
  let type ← img[3]?
  let lo ← img[14]?
  let hi ← img[15]?
  let blo ← img[21]?
  let bhi ← img[22]?
  let flag ← img[23]?
  let len := le16 lo hi
  if le16 blo bhi = len + 2 ∧ flag = 255 ∧ 24 + len < img.length then
    some { type := type.val, name := (img.drop 4).take 10, payload := (img.drop 24).take len }
  else
    none

/-- The address check of `main` (lines 192-195): `main` exits with a diagnostic,
without calling `mktap`, when `address < 16384 || address > 65535`; this is the
negation of that test, the condition under which `mktap` is reached. -/
def addressAccepted (address : Int) : Prop := ¬ (address < 16384 ∨ address > 65535)

instance (address : Int) : Decidable (addressAccepted address) := by
  unfold addressAccepted; infer_instance

/-! ## The sequence of write calls -/

/-- The buffers that lines 97-151 hand to `write`, one per call and in the order of
the calls, in closed form (`mktap_blocks_writeSeq` proves that a run issues these
calls). -/
def writeCalls (input name : List Byte) (address type : Int) : List (List Byte) :=
  [[uchar 19], [uchar 0], [uchar 0], [uchar type], (snprintf_name name).map toupper,
   [uchar (input.length : Int)], [0],
   [(param1 address type).1], [(param1 address type).2], [uchar 0], [uchar 128],
   [(headerBody name address type input.length).foldl (fun acc b => acc ^^^ b) 0],
   [uchar ((input.length : Int) + 2)], [0],
   [uchar 255], input, [input.foldl (fun acc b => acc ^^^ b) (uchar 255)]]

/-- Case distinction on the fate of a `write` call. -/
def onWrite {α : Type} (w : Option Nat) (done : α) (failed : Nat → α) : α :=
  match w with
  | none => done
  | some r => failed r

/-- A sequence of `write` calls that stops at the first call that fails, as the
macros `WRITE` and `WRITE1` do: the content of the file and the number of calls
issued, starting from the content `data` after `calls` calls. -/
def writeSeq (sys : Sys) :
    List (List Byte) → List Byte → Nat → Except (List Byte × Nat) (List Byte × Nat)
  | [], data, calls => .ok (data, calls)
  | buf :: rest, data, calls =>
    onWrite (sys.write calls) (writeSeq sys rest (data ++ buf) (calls + 1))
      (fun r => .error (data ++ buf.take (min r (buf.length - 1)), calls + 1))

/-- The content of the file and the number of calls of a final state of
`mktap_blocks`, without the local variable `checksum`. -/
def fileOf (r : Except Tape Tape) : Except (List Byte × Nat) (List Byte × Nat) :=
  match r with
  | .error t => .error (t.data, t.calls)
  | .ok t => .ok (t.data, t.calls)

/-- A run in which the fifth `write` call, the one that writes the 10 bytes of the
name, transfers 3 bytes only, every other system call succeeding. -/
def shortNameWrite : Sys :=
  { okSys with write := fun i => if i = 4 then some 3 else none }

/-! ## Basic facts -/

theorem uchar_val (b : Byte) : uchar (b.val : Int) = b := by
  apply Fin.ext
  simp only [uchar]
  have := b.isLt
  omega

theorem uchar_castUChar (x : Int) : uchar (castUChar x) = uchar x :=
  uchar_val (uchar x)

theorem uchar_land_castUChar (x : Int) : uchar (Int.land (castUChar x) 0xff) = uchar x := by
  have h : Int.land (castUChar x) 0xff = (((uchar x).val &&& 0xff : Nat) : Int) := rfl
  have h2 : (uchar x).val &&& 0xff = (uchar x).val := by
    have h3 := Nat.and_pow_two_sub_one_eq_mod (uchar x).val 8
    have h4 : (uchar x).val % 2 ^ 8 = (uchar x).val := Nat.mod_eq_of_lt (uchar x).isLt
    rw [h4] at h3
    exact h3
  rw [h, h2]
  exact uchar_val (uchar x)

theorem uchar_shiftRight_castUChar (x : Int) :
    uchar (Int.shiftRight (castUChar x) 8) = 0 := by
  have h : Int.shiftRight (castUChar x) 8 = (((uchar x).val >>> 8 : Nat) : Int) := rfl
  have h2 : (uchar x).val >>> 8 = 0 := by
    rw [Nat.shiftRight_eq_div_pow]
    have := (uchar x).isLt
    omega
  rw [h, h2]
  rfl

theorem zero_xor_byte (b : Byte) : (0 : Byte) ^^^ b = b := by
  apply Fin.ext
  show (0 ^^^ b.val) % 256 = b.val
  rw [Nat.zero_xor]
  exact Nat.mod_eq_of_lt b.isLt

theorem uchar_19 : uchar 19 = 19 := by decide

theorem uchar_0 : uchar 0 = 0 := by decide

theorem uchar_128 : uchar 128 = 128 := by decide

theorem uchar_255 : uchar 255 = 255 := by decide

theorem snprintf_name_length (name : List Byte) : (snprintf_name name).length = 10 := by
  simp only [snprintf_name, List.length_take, List.length_append, List.length_replicate]
  omega

theorem WRITE1_okSys (data : Int) (sum : Bool) (t : Tape) :
    WRITE1 okSys data sum t = .ok
      { data := t.data ++ [uchar data], calls := t.calls + 1,
        checksum := if sum then t.checksum ^^^ uchar data else t.checksum } := by
  cases sum <;> simp [WRITE1, __write1, __write, okSys]

theorem WRITE_okSys (buf : List Byte) (size : Int) (sum : Bool) (t : Tape) :
    WRITE okSys buf size sum t = .ok
      { data := t.data ++ buf.take size.toNat, calls := t.calls + 1,
        checksum :=
          if sum then (buf.take size.toNat).foldl (fun acc b => acc ^^^ b) t.checksum
          else t.checksum } := by
  cases sum <;> simp [WRITE, __write, okSys]

theorem except_ok_bind {ε α β : Type} (a : α) (f : α → Except ε β) :
    (Except.ok a >>= f) = f a := rfl

theorem mktap_blocks_okSys (ibuf name : List Byte) (address type st_size : Int) :
    mktap_blocks okSys ibuf name address type st_size { data := [], calls := 0, checksum := 0 }
      = .ok
      { data := [uchar 19, uchar 0] ++ headerBody name address type st_size ++
          [(headerBody name address type st_size).foldl (fun acc b => acc ^^^ b) 0] ++
          [uchar (st_size + 2), 0, uchar 255] ++
          ibuf.take st_size.toNat ++
          [(ibuf.take st_size.toNat).foldl (fun acc b => acc ^^^ b) (uchar 255)],
        calls := 17,
        checksum := (ibuf.take st_size.toNat).foldl (fun acc b => acc ^^^ b) (uchar 255) } := by
  have hlen : ((snprintf_name name).map toupper).take 10
      = (snprintf_name name).map toupper := by
    apply List.take_of_length_le
    simp [snprintf_name_length]
  unfold mktap_blocks
  by_cases h0 : type = 0
  · simp [h0, WRITE1_okSys, WRITE_okSys, except_ok_bind, hlen, headerBody, param1, uchar_val,
      uchar_castUChar, uchar_land_castUChar, uchar_shiftRight_castUChar, zero_xor_byte,
      List.foldl_append]
  · by_cases h3 : type = 3
    · simp [h3, WRITE1_okSys, WRITE_okSys, except_ok_bind, hlen, headerBody, param1, uchar_val,
        uchar_castUChar, uchar_land_castUChar, uchar_shiftRight_castUChar, zero_xor_byte,
        List.foldl_append]
    · simp [h0, h3, WRITE1_okSys, WRITE_okSys, except_ok_bind, hlen, headerBody, param1,
        uchar_val, uchar_castUChar, uchar_land_castUChar, uchar_shiftRight_castUChar,
        zero_xor_byte, List.foldl_append]

theorem mktap_okSys (input name : List Byte) (address type : Int)
    (h : ¬ SizeInvalid input address) :
    mktap okSys input name address type = success (image input name address type) := by
  have htake : (input ++ List.replicate (INPUT_MAX_SIZE - input.length) (0 : Byte)).take
      (input.length : Int).toNat = input := by
    simp
  unfold SizeInvalid at h
  simp only [mktap, if_neg h, mktap_blocks_okSys, htake, image, success]
  simp [okSys]

theorem mktap_sizeInvalid (sys : Sys) (input name : List Byte) (address type : Int)
    (hopen : sys.openInput = true) (hstat : sys.fstat = true)
    (h : SizeInvalid input address) :
    mktap sys input name address type = rejected := by
  unfold SizeInvalid at h
  unfold mktap
  simp only [hopen, hstat, Bool.true_eq_false, if_false]
  rw [if_pos h]
  rfl

theorem sizeInvalid_iff (input : List Byte) (address : Int) :
    SizeInvalid input address ↔
      (input.length = 0 ∨ input.length > 49152 ∨ address + (input.length : Int) > 65535) := by
  unfold SizeInvalid INPUT_MAX_SIZE
  omega

theorem valid_not_sizeInvalid {payload name : List Byte} {address type : Int}
    (h : ValidRequest payload name address type) : ¬ SizeInvalid payload address := by
  unfold ValidRequest at h
  rw [sizeInvalid_iff]
  omega

theorem mktap_valid {payload name : List Byte} {address type : Int}
    (h : ValidRequest payload name address type) :
    mktap okSys payload name address type = success (image payload name address type) :=
  mktap_okSys payload name address type (valid_not_sizeInvalid h)

/-! ## Positions in the image -/

theorem headerBody_length (name : List Byte) (address type st_size : Int) :
    (headerBody name address type st_size).length = 18 := by
  simp [headerBody, snprintf_name_length]

theorem image_take2 (input name : List Byte) (address type : Int) :
    (image input name address type).take 2 = [19, 0] := by
  simp [image, uchar_19, uchar_0]

theorem image_header (input name : List Byte) (address type : Int) :
    ((image input name address type).drop 2).take 18
      = headerBody name address type input.length := by
  simp only [image, List.append_assoc, List.cons_append, List.nil_append, List.drop_succ_cons,
    List.drop_zero]
  exact List.take_left' (headerBody_length _ _ _ _)

theorem image_drop20 (input name : List Byte) (address type : Int) :
    (image input name address type).drop 20
      = xorFrom 0 (headerBody name address type input.length) ::
        uchar ((input.length : Int) + 2) :: 0 ::
        uchar 255 :: (input ++ [xorFrom (uchar 255) input]) := by
  simp only [image, List.append_assoc, List.cons_append, List.nil_append, List.drop_succ_cons,
    xorFrom]
  exact List.drop_left' (headerBody_length _ _ _ _)

theorem image_take14 (input name : List Byte) (address type : Int) :
    (image input name address type).take 14
      = [19, 0, 0, uchar type] ++ (snprintf_name name).map toupper := by
  have hl : ((snprintf_name name).map toupper).length = 10 := by
    simp [snprintf_name_length]
  simp only [image, headerBody, List.append_assoc, List.cons_append, List.nil_append,
    List.take_succ_cons]
  rw [List.take_left' hl, uchar_19, uchar_0]

theorem image_drop14 (input name : List Byte) (address type : Int) :
    (image input name address type).drop 14
      = uchar (input.length : Int) :: 0 ::
        (param1 address type).1 :: (param1 address type).2 :: 0 :: 128 ::
        (image input name address type).drop 20 := by
  have hl : ((snprintf_name name).map toupper).length = 10 := by
    simp [snprintf_name_length]
  rw [image_drop20]
  simp only [image, headerBody, List.append_assoc, List.cons_append, List.nil_append,
    List.drop_succ_cons, xorFrom]
  rw [List.drop_left' hl]
  simp [uchar_0, uchar_128]

theorem image_length (input name : List Byte) (address type : Int) :
    (image input name address type).length = input.length + 25 := by
  simp [image, headerBody_length]
  omega

theorem image_getElem?_14 (input name : List Byte) (address type : Int) (i : Nat) :
    (image input name address type)[14 + i]? =
      (uchar (input.length : Int) :: 0 ::
        (param1 address type).1 :: (param1 address type).2 :: 0 :: 128 ::
        xorFrom 0 (headerBody name address type input.length) ::
        uchar ((input.length : Int) + 2) :: 0 ::
        uchar 255 :: (input ++ [xorFrom (uchar 255) input]))[i]? := by
  rw [← List.getElem?_drop, image_drop14, image_drop20]

theorem image_getElem?_lt14 (input name : List Byte) (address type : Int) (i : Nat)
    (h : i < 14) :
    (image input name address type)[i]? =
      ([19, 0, 0, uchar type] ++ (snprintf_name name).map toupper)[i]? := by
  rw [← image_take14 input name address type, List.getElem?_take_of_lt h]

/-! ## Bytes of a length -/

theorem uchar_natCast_val (n : Nat) : (uchar (n : Int)).val = n % 256 := by
  simp only [uchar]
  omega

/-! ## The name field -/

theorem toupper_space : toupper 32 = 32 := by decide

theorem ascii_sample : ∀ c ∈ ([102, 79, 49] : List Byte), c.val < 128 := by
  intro c hc
  simp only [List.mem_cons, List.mem_singleton, List.not_mem_nil, or_false] at hc
  rcases hc with rfl | rfl | rfl <;> decide

theorem toupper_eq (c : Byte) :
    toupper c = if 97 ≤ c.val ∧ c.val ≤ 122 then c - 32 else c := by
  unfold toupper
  split
  · rename_i hc
    apply Fin.ext
    rw [Fin.sub_def]
    show c.val - 32 = (256 - 32 + c.val) % 256
    omega
  · rfl

theorem snprintf_name_of_le {name : List Byte} (h : name.length ≤ 10) :
    snprintf_name name = name ++ List.replicate (10 - name.length) 32 := by
  unfold snprintf_name
  apply List.take_of_length_le
  simp only [List.length_append, List.length_replicate]
  omega

theorem snprintf_name_of_ge {name : List Byte} (h : 10 ≤ name.length) :
    snprintf_name name = name.take 10 := by
  unfold snprintf_name
  have h0 : 10 - name.length = 0 := by omega
  rw [h0]
  simp

theorem snprintf_name_take (name : List Byte) :
    snprintf_name (name.take 10) = snprintf_name name := by
  by_cases h : 10 ≤ name.length
  · rw [snprintf_name_of_ge h, snprintf_name_of_ge (by simp [h])]
    simp
  · rw [List.take_of_length_le (by omega)]

theorem name_field {name : List Byte} (h : name.length ≤ 10) :
    (snprintf_name name).map toupper
      = name.map toupper ++ List.replicate (10 - name.length) 32 := by
  rw [snprintf_name_of_le h, List.map_append, List.map_replicate, toupper_space]

theorem image_name (input name : List Byte) (address type : Int) :
    ((image input name address type).drop 4).take 10 = (snprintf_name name).map toupper := by
  have hl : ((snprintf_name name).map toupper).length = 10 := by
    simp [snprintf_name_length]
  simp only [image, headerBody, List.append_assoc, List.cons_append, List.nil_append,
    List.drop_succ_cons, List.drop_zero]
  exact List.take_left' hl

/-! ## The size test -/

/-- C1: with every I/O call succeeding, `mktap` returns failure with the "input
file size is invalid" diagnostic exactly when the payload is empty, or longer than
49152 bytes, or `load_address + len(payload) > 65535`, and succeeds otherwise; a
payload of 49152 bytes at 16384 is refused and one of 49151 bytes at 16384 is
encoded. -/
theorem mktap_rejects_iff :
    (∀ (input name : List Byte) (address type : Int),
      (((mktap okSys input name address type).status = EXIT_FAILURE ∧
          (mktap okSys input name address type).stderr = some Diag.invalidSize) ↔
        (input.length = 0 ∨ input.length > 49152 ∨
          address + (input.length : Int) > 65535)) ∧
      ((mktap okSys input name address type).status = EXIT_SUCCESS ↔
        ¬ (input.length = 0 ∨ input.length > 49152 ∨
          address + (input.length : Int) > 65535))) ∧
    (∀ (input name : List Byte) (type : Int), input.length = 49152 →
      mktap okSys input name 16384 type = rejected) ∧
    (∀ (input name : List Byte) (type : Int), input.length = 49151 →
      ∃ out, mktap okSys input name 16384 type = success out) := by
  refine ⟨?_, ?_, ?_⟩
  · intro input name address type
    rw [← sizeInvalid_iff]
    by_cases h : SizeInvalid input address
    · rw [mktap_sizeInvalid okSys input name address type rfl rfl h]
      simp [rejected, h, EXIT_FAILURE, EXIT_SUCCESS]
    · rw [mktap_okSys input name address type h]
      simp [success, h, EXIT_FAILURE, EXIT_SUCCESS]
  · intro input name type hlen
    apply mktap_sizeInvalid okSys input name 16384 type rfl rfl
    rw [sizeInvalid_iff]
    omega
  · intro input name type hlen
    refine ⟨image input name 16384 type, mktap_okSys input name 16384 type ?_⟩
    rw [sizeInvalid_iff]
    omega

/-! ## Checksums -/

/-- C2: for every valid request the run succeeds and the byte at offset 20 of the
output, the header checksum, is the XOR of the output bytes at offsets 2 to 19. -/
theorem header_checksum (payload name : List Byte) (address type : Int)
    (h : ValidRequest payload name address type) :
    ∃ out, mktap okSys payload name address type = success out ∧
      out[20]? = some (xorFrom 0 ((out.drop 2).take 18)) := by
  refine ⟨_, mktap_valid h, ?_⟩
  rw [image_header]
  show (image payload name address type)[20 + 0]? = _
  rw [← List.getElem?_drop, image_drop20]
  rfl

theorem header_checksum_witness :
    ValidRequest [1, 2, 3] [102, 111, 111] 32768 3 ∧
    ∃ out, mktap okSys [1, 2, 3] [102, 111, 111] 32768 3 = success out ∧
      out[20]? = some (xorFrom 0 ((out.drop 2).take 18)) :=
  ⟨by decide, header_checksum [1, 2, 3] [102, 111, 111] 32768 3 (by decide)⟩

/-- C3: for every valid request the run succeeds and the last byte of the output,
the checksum of the data block, is `0xFF` XOR-ed with the bytes of the payload and
with nothing else. -/
theorem data_checksum (payload name : List Byte) (address type : Int)
    (h : ValidRequest payload name address type) :
    ∃ out, mktap okSys payload name address type = success out ∧
      out.getLast? = some (xorFrom 255 payload) := by
  refine ⟨_, mktap_valid h, ?_⟩
  unfold image
  rw [List.getLast?_concat, uchar_255]
  rfl

theorem data_checksum_witness :
    ValidRequest [1, 2, 3] [102, 111, 111] 32768 3 ∧
    ∃ out, mktap okSys [1, 2, 3] [102, 111, 111] 32768 3 = success out ∧
      out.getLast? = some (xorFrom 255 [1, 2, 3]) :=
  ⟨by decide, data_checksum [1, 2, 3] [102, 111, 111] 32768 3 (by decide)⟩

/-! ## Round trip -/

theorem valid_replicate (n : Nat) (h1 : 1 ≤ n) (h2 : n ≤ 32767) :
    ValidRequest (List.replicate n 0) [102, 111, 111] 32768 3 := by
  unfold ValidRequest
  simp only [List.length_replicate]
  refine ⟨h1, by omega, by decide, by omega, by decide, by decide, by decide⟩

theorem decode_image (input name : List Byte) (address type : Int) :
    decode (image input name address type) =
      if le16 (uchar ((input.length : Int) + 2)) 0 = le16 (uchar (input.length : Int)) 0 + 2 ∧
          24 + le16 (uchar (input.length : Int)) 0 < input.length + 25 then
        some { type := (uchar type).val, name := (snprintf_name name).map toupper,
               payload := (input ++ [xorFrom (uchar 255) input]).take
                 (le16 (uchar (input.length : Int)) 0) }
      else none := by
  have e3 : (image input name address type)[3]? = some (uchar type) := by
    rw [image_getElem?_lt14 _ _ _ _ 3 (by decide)]
    simp
  have e14 := image_getElem?_14 input name address type 0
  have e15 := image_getElem?_14 input name address type 1
  have e21 := image_getElem?_14 input name address type 7
  have e22 := image_getElem?_14 input name address type 8
  have e23 := image_getElem?_14 input name address type 9
  simp only [List.getElem?_cons_succ, List.getElem?_cons_zero, Nat.reduceAdd] at e14 e15 e21 e22 e23
  have h24 : (image input name address type).drop 24
      = input ++ [xorFrom (uchar 255) input] := by
    have h20 := image_drop20 input name address type
    have : (image input name address type).drop 24
        = ((image input name address type).drop 20).drop 4 := by
      rw [List.drop_drop]
    rw [this, h20]
    rfl
  simp only [decode, e3, e14, e15, e21, e22, e23, Option.bind_eq_bind, Option.some_bind,
    image_name, image_length, h24, uchar_255, true_and]

/-- C4 fails on the code: for the valid request with a payload of 256 zero bytes,
name "foo", load address 32768 and type 3, the run succeeds, but the data-length
field at offsets 14..15 is `[0, 0]` (line 115 writes 0 for the high byte), and
reading the image by the layout of spec section 6 gives back the type and the name
with an empty payload instead of the 256 bytes. -/
theorem round_trip_loses_payload :
    ValidRequest (List.replicate 256 0) [102, 111, 111] 32768 3 ∧
    ∃ out, mktap okSys (List.replicate 256 0) [102, 111, 111] 32768 3 = success out ∧
      out.length = 256 + 25 ∧
      (out.drop 14).take 2 = [0, 0] ∧
      decode out = some { type := 3, name := [70, 79, 79, 32, 32, 32, 32, 32, 32, 32],
                          payload := [] } ∧
      ([] : List Byte) ≠ List.replicate 256 0 := by
  have hv := valid_replicate 256 (by decide) (by decide)
  have h256 : uchar (((List.replicate 256 (0 : Byte)).length : Int)) = 0 := by
    rw [List.length_replicate]
    decide
  have h258 : uchar (((List.replicate 256 (0 : Byte)).length : Int) + 2) = 2 := by
    rw [List.length_replicate]
    decide
  refine ⟨hv, _, mktap_valid hv, ?_, ?_, ?_, ?_⟩
  · rw [image_length, List.length_replicate]
  · rw [image_drop14, h256]
    rfl
  · rw [decode_image, h256, h258, List.length_replicate]
    decide
  · intro h
    have := congrArg List.length h
    rw [List.length_replicate, List.length_nil] at this
    omega

/-! ## Scenario A -/

/-- C5, as the claim states it, fails: for payload `[1, 2, 3]`, name "foo", load
address 32768 and type 3 the data block (the output from offset 21 on) is not
`[0x05, 0x00, 0xFF, 0x01, 0x02, 0x03, 0xFD]`, and `0xFF ^ 0x01 ^ 0x02 ^ 0x03` is
not `0xFD`. -/
theorem data_block_not_FD :
    (mktap okSys [1, 2, 3] [102, 111, 111] 32768 3).file.map (List.drop 21)
      ≠ some [0x05, 0x00, 0xFF, 0x01, 0x02, 0x03, 0xFD] ∧
    ((0xFF : Byte) ^^^ 0x01 ^^^ 0x02 ^^^ 0x03) ≠ 0xFD := by
  decide

/-- C5, amended: for payload `[1, 2, 3]`, name "foo", load address 32768 and type 3
the run succeeds; the bytes at offsets 4..13 are "FOO" and 7 spaces, and the data
block is `[0x05, 0x00, 0xFF, 0x01, 0x02, 0x03, 0xFF]`, whose last byte `0xFF` is
`0xFF ^ 0x01 ^ 0x02 ^ 0x03`. -/
theorem scenarioA_encoding :
    ∃ out, mktap okSys [1, 2, 3] [102, 111, 111] 32768 3 = success out ∧
      (out.drop 4).take 10 = [70, 79, 79, 32, 32, 32, 32, 32, 32, 32] ∧
      out.drop 21 = [0x05, 0x00, 0xFF, 0x01, 0x02, 0x03, 0xFF] ∧
      ((0xFF : Byte) ^^^ 0x01 ^^^ 0x02 ^^^ 0x03) = 0xFF := by
  refine ⟨image [1, 2, 3] [102, 111, 111] 32768 3, mktap_okSys _ _ _ _ (by decide),
    ?_, ?_, ?_⟩ <;> decide

/-! ## The parameter fields -/

theorem param1_of_ne_three {type : Int} (address : Int) (h : type ≠ 3) :
    param1 address type = (0, 128) := by
  unfold param1
  by_cases h0 : type = 0
  · rw [if_pos h0, uchar_0, uchar_128]
  · rw [if_neg h0, if_neg h, uchar_0, uchar_128]

theorem image_params (input name : List Byte) (address type : Int) :
    ((image input name address type).drop 16).take 4
      = [(param1 address type).1, (param1 address type).2, 0, 128] := by
  have h : (image input name address type).drop 16
      = ((image input name address type).drop 14).drop 2 := by
    rw [List.drop_drop]
  rw [h, image_drop14]
  rfl

/-- C6 fails on the code: for the valid request with payload `[1, 2, 3]`, name
"foo", type 3 and load address 33025 (`0x8101`), the run succeeds and parameter 1
(offsets 16..17) is `[1, 0]`: the low byte of the address, then 0 where the high
byte 129 should be (line 125 passes `(unsigned char)(address & 0xff00) >> 8`).
Parameter 2 (offsets 18..19) is `[0, 128]`. -/
theorem param1_high_byte_lost :
    ValidRequest [1, 2, 3] [102, 111, 111] 33025 3 ∧
    ∃ out, mktap okSys [1, 2, 3] [102, 111, 111] 33025 3 = success out ∧
      (out.drop 16).take 2 = [1, 0] ∧
      (out.drop 16).take 2 ≠ [uchar (33025 % 256), uchar (33025 / 256)] ∧
      (out.drop 18).take 2 = [0, 128] := by
  refine ⟨by decide, image [1, 2, 3] [102, 111, 111] 33025 3,
    mktap_okSys _ _ _ _ (by decide), ?_, ?_, ?_⟩ <;> decide

/-! ## Scenario B: the type Program -/

theorem mktap_blocks_program (sys : Sys) (ibuf name : List Byte) (a1 a2 st_size : Int)
    (t : Tape) :
    mktap_blocks sys ibuf name a1 0 st_size t = mktap_blocks sys ibuf name a2 0 st_size t := by
  simp only [mktap_blocks, if_true]

/-- C7, as the claim states it, fails: for type 0, the one-byte payload `[0]` and
the name "a", the load address 16384 is encoded and the load address 65535 is
refused by the size test, so two load addresses do not give the same result. -/
theorem program_address_matters :
    mktap okSys [0] [97] 16384 0
        = success [19, 0, 0, 0, 65, 32, 32, 32, 32, 32, 32, 32, 32, 32, 1, 0, 0, 128, 0, 128,
            96, 3, 0, 255, 0, 255] ∧
      mktap okSys [0] [97] 65535 0 = rejected ∧
      mktap okSys [0] [97] 16384 0 ≠ mktap okSys [0] [97] 65535 0 := by
  decide

/-- C7, amended: for type 0 (Program), whatever the outcomes of the system calls,
two load addresses that agree on the size test `load_address + len(payload) > 65535`
give the same result (same return value, same diagnostic, same output bytes); and
when the size test passes, parameter 1 (offsets 16..17) is `[0x00, 0x80]`. -/
theorem program_ignores_address (sys : Sys) (payload name : List Byte) (a1 a2 : Int)
    (h : a1 + (payload.length : Int) > 65535 ↔ a2 + (payload.length : Int) > 65535) :
    mktap sys payload name a1 0 = mktap sys payload name a2 0 ∧
      (1 ≤ payload.length ∧ payload.length ≤ 49152 ∧ a1 + (payload.length : Int) ≤ 65535 →
        ∃ out, mktap okSys payload name a1 0 = success out ∧
          (out.drop 16).take 2 = [0x00, 0x80]) := by
  constructor
  · have hc : ((payload.length : Int) = 0 ∨ (payload.length : Int) > INPUT_MAX_SIZE ∨
          a1 + (payload.length : Int) > 65535) ↔
        ((payload.length : Int) = 0 ∨ (payload.length : Int) > INPUT_MAX_SIZE ∨
          a2 + (payload.length : Int) > 65535) := by
      rw [h]
    simp only [mktap, hc, mktap_blocks_program sys _ name a1 a2]
  · intro hv
    refine ⟨_, mktap_okSys payload name a1 0 ?_, ?_⟩
    · rw [sizeInvalid_iff]
      omega
    · have hp := image_params payload name a1 0
      rw [param1_of_ne_three a1 (by decide)] at hp
      have := congrArg (List.take 2) hp
      simpa [List.take_take] using this

theorem program_ignores_address_witness :
    ((16384 : Int) + (([7, 8] : List Byte).length : Int) > 65535 ↔
      (40000 : Int) + (([7, 8] : List Byte).length : Int) > 65535) ∧
    (mktap okSys [7, 8] [97] 16384 0 = mktap okSys [7, 8] [97] 40000 0 ∧
      (1 ≤ ([7, 8] : List Byte).length ∧ ([7, 8] : List Byte).length ≤ 49152 ∧
          (16384 : Int) + (([7, 8] : List Byte).length : Int) ≤ 65535 →
        ∃ out, mktap okSys [7, 8] [97] 16384 0 = success out ∧
          (out.drop 16).take 2 = [0x00, 0x80])) :=
  ⟨by decide, program_ignores_address okSys [7, 8] [97] 16384 40000 (by decide)⟩

/-! ## The name -/

/-- C8: for every valid request whose name has 1 to 10 ASCII characters the run
succeeds and the name field (offsets 4..13) is 10 bytes: the characters of the
name, each letter `a`..`z` replaced by its upper-case letter (32 less) and every
other character unchanged, then `10 - len(name)` spaces. -/
theorem name_field_upper_padded (payload name : List Byte) (address type : Int)
    (h : ValidRequest payload name address type) (_h1 : 1 ≤ name.length)
    (_hascii : ∀ c ∈ name, c.val < 128) :
    ∃ out, mktap okSys payload name address type = success out ∧
      ((out.drop 4).take 10).length = 10 ∧
      (out.drop 4).take 10 =
        name.map (fun c => if 97 ≤ c.val ∧ c.val ≤ 122 then c - 32 else c) ++
          List.replicate (10 - name.length) 32 := by
  have hup : ∀ c : Byte, toupper c = if 97 ≤ c.val ∧ c.val ≤ 122 then c - 32 else c :=
    toupper_eq
  have hmap : name.map toupper
      = name.map (fun c => if 97 ≤ c.val ∧ c.val ≤ 122 then c - 32 else c) :=
    List.map_congr_left (fun c _ => hup c)
  have hn : name.length ≤ 10 := h.2.2.2.2.2.2
  refine ⟨_, mktap_valid h, ?_, ?_⟩
  · rw [image_name, List.length_map, snprintf_name_length]
  · rw [image_name, name_field hn, hmap]

theorem name_field_upper_padded_witness :
    ValidRequest [1, 2, 3] [102, 79, 49] 32768 3 ∧ 1 ≤ ([102, 79, 49] : List Byte).length ∧
    (∀ c ∈ ([102, 79, 49] : List Byte), c.val < 128) ∧
    ∃ out, mktap okSys [1, 2, 3] [102, 79, 49] 32768 3 = success out ∧
      ((out.drop 4).take 10).length = 10 ∧
      (out.drop 4).take 10 =
        List.map (fun c : Byte => if 97 ≤ c.val ∧ c.val ≤ 122 then c - 32 else c)
            [102, 79, 49] ++
          List.replicate (10 - ([102, 79, 49] : List Byte).length) 32 :=
  ⟨by decide, by decide, ascii_sample,
    name_field_upper_padded [1, 2, 3] [102, 79, 49] 32768 3 (by decide) (by decide)
      ascii_sample⟩

theorem mktap_name_take (sys : Sys) (input name : List Byte) (address type : Int) :
    mktap sys input (name.take 10) address type = mktap sys input name address type := by
  simp only [mktap, mktap_blocks, snprintf_name_take]

/-- C9: a name of more than 10 characters is cut to its first 10: when the request
with the name cut to 10 characters is valid, the result is, whatever the outcomes
of the system calls, the result for the cut name; the run without I/O failure
succeeds, the name field (offsets 4..13) is the first 10 characters upper-cased, the
output has `len(payload) + 25` bytes and the data-length field starts at offset 14,
where the low byte of `len(payload)` is. -/
theorem long_name_truncated (sys : Sys) (payload name : List Byte) (address type : Int)
    (hlong : 10 < name.length) (h : ValidRequest payload (name.take 10) address type) :
    mktap sys payload name address type = mktap sys payload (name.take 10) address type ∧
      ∃ out, mktap okSys payload name address type = success out ∧
        (out.drop 4).take 10 = (name.take 10).map toupper ∧
        ((out.drop 4).take 10).length = 10 ∧
        out.length = payload.length + 25 ∧
        ∃ lo : Byte, out[14]? = some lo ∧ lo.val = payload.length % 256 := by
  refine ⟨(mktap_name_take sys payload name address type).symm, ?_⟩
  have hs : snprintf_name name = name.take 10 := snprintf_name_of_ge (by omega)
  have hv := mktap_valid h
  rw [mktap_name_take] at hv
  refine ⟨_, hv, ?_, ?_, ?_, ?_⟩
  · rw [image_name, snprintf_name_take, hs]
  · rw [image_name, List.length_map, snprintf_name_length]
  · rw [image_length]
  · refine ⟨uchar (payload.length : Int), ?_, uchar_natCast_val payload.length⟩
    have e14 := image_getElem?_14 payload (name.take 10) address type 0
    simpa using e14

theorem long_name_truncated_witness :
    10 < ([97, 98, 99, 100, 101, 102, 103, 104, 105, 106, 107, 108] : List Byte).length ∧
    ValidRequest [1, 2, 3]
      (List.take 10 [97, 98, 99, 100, 101, 102, 103, 104, 105, 106, 107, 108]) 32768 3 ∧
    (mktap okSys [1, 2, 3] [97, 98, 99, 100, 101, 102, 103, 104, 105, 106, 107, 108] 32768 3
        = mktap okSys [1, 2, 3]
            (List.take 10 [97, 98, 99, 100, 101, 102, 103, 104, 105, 106, 107, 108]) 32768 3 ∧
      ∃ out, mktap okSys [1, 2, 3] [97, 98, 99, 100, 101, 102, 103, 104, 105, 106, 107, 108]
            32768 3 = success out ∧
        (out.drop 4).take 10 = List.map toupper
          (List.take 10 [97, 98, 99, 100, 101, 102, 103, 104, 105, 106, 107, 108]) ∧
        ((out.drop 4).take 10).length = 10 ∧
        out.length = ([1, 2, 3] : List Byte).length + 25 ∧
        ∃ lo : Byte, out[14]? = some lo ∧ lo.val = ([1, 2, 3] : List Byte).length % 256) :=
  ⟨by decide, by decide,
    long_name_truncated okSys [1, 2, 3] [97, 98, 99, 100, 101, 102, 103, 104, 105, 106, 107, 108]
      32768 3 (by decide) (by decide)⟩

/-! ## The length field of the header block -/

/-- C10: for every valid request the run succeeds and the first two bytes of the
output, the length field of the header block, are 19, 0: the little-endian value
19, whatever the payload, the name, the type and the load address. -/
theorem header_block_length (payload name : List Byte) (address type : Int)
    (h : ValidRequest payload name address type) :
    ∃ out, mktap okSys payload name address type = success out ∧
      out.take 2 = [19, 0] ∧
      ∃ lo hi : Byte, out.take 2 = [lo, hi] ∧ le16 lo hi = 19 :=
  ⟨_, mktap_valid h, image_take2 payload name address type,
    19, 0, image_take2 payload name address type, rfl⟩

theorem header_block_length_witness :
    ValidRequest [1, 2, 3] [102, 111, 111] 32768 3 ∧
    ∃ out, mktap okSys [1, 2, 3] [102, 111, 111] 32768 3 = success out ∧
      out.take 2 = [19, 0] ∧
      ∃ lo hi : Byte, out.take 2 = [lo, hi] ∧ le16 lo hi = 19 :=
  ⟨by decide, header_block_length [1, 2, 3] [102, 111, 111] 32768 3 (by decide)⟩

/-! ## The length fields of the data block -/

theorem image_drop21 (input name : List Byte) (address type : Int) :
    (image input name address type).drop 21
      = uchar ((input.length : Int) + 2) :: 0 :: 255 :: (input ++ [xorFrom 255 input]) := by
  have h : (image input name address type).drop 21
      = ((image input name address type).drop 20).drop 1 := by
    rw [List.drop_drop]
  rw [h, image_drop20, uchar_255]
  rfl

/-- C11 fails on the code: for the valid request with a payload of 254 zero bytes,
name "foo", load address 32768 and type 3, the run succeeds and the length field of
the data block (offsets 21..22) is `[0, 0]`, which reads 0 and not `254 + 2 = 256`:
line 142 writes 0 for the high byte, so the field holds `(len + 2) % 256`. -/
theorem data_block_length_wraps :
    ValidRequest (List.replicate 254 0) [102, 111, 111] 32768 3 ∧
    ∃ out, mktap okSys (List.replicate 254 0) [102, 111, 111] 32768 3 = success out ∧
      (out.drop 21).take 2 = [0, 0] ∧ le16 0 0 = (254 + 2) % 256 ∧ le16 0 0 ≠ 254 + 2 := by
  have hv := valid_replicate 254 (by decide) (by decide)
  have h256 : uchar (((List.replicate 254 (0 : Byte)).length : Int) + 2) = 0 := by
    rw [List.length_replicate]
    decide
  refine ⟨hv, _, mktap_valid hv, ?_, by decide, by decide⟩
  rw [image_drop21, h256]
  rfl

/-- C12 fails on the code: for the valid request with a payload of 256 zero bytes,
name "foo", load address 32768 and type 3, the run succeeds and the data-length
field of the header (offsets 14..15) is `[0, 0]`, which reads 0 and not 256: line
115 writes 0 for the high byte, so the field holds `len % 256`. -/
theorem header_data_length_wraps :
    ValidRequest (List.replicate 256 0) [102, 111, 111] 32768 3 ∧
    ∃ out, mktap okSys (List.replicate 256 0) [102, 111, 111] 32768 3 = success out ∧
      (out.drop 14).take 2 = [0, 0] ∧ le16 0 0 = 256 % 256 ∧ le16 0 0 ≠ 256 := by
  have hv := valid_replicate 256 (by decide) (by decide)
  have h256 : uchar (((List.replicate 256 (0 : Byte)).length : Int)) = 0 := by
    rw [List.length_replicate]
    decide
  refine ⟨hv, _, mktap_valid hv, ?_, by decide, by decide⟩
  rw [image_drop14, h256]
  rfl

/-! ## Framing -/

theorem image_blocks (input name : List Byte) (address type : Int) :
    image input name address type
      = 19 :: 0 ::
          (headerBody name address type input.length ++
            [xorFrom 0 (headerBody name address type input.length)]) ++
        uchar ((input.length : Int) + 2) :: 0 :: (255 :: input ++ [xorFrom 255 input]) := by
  simp [image, xorFrom, uchar_19, uchar_0, uchar_255]

/-- C13 fails on the code: for the valid request with a payload of 254 zero bytes,
name "foo", load address 32768 and type 3, the run succeeds and the output is the
length 19, the 19 bytes of the header block, the length field `[0, 0]` of the data
block, and the `254 + 2 = 256` bytes of the data block: the length field of the
data block reads 0 and does not cover the bytes that follow it. -/
theorem data_block_frame_wraps :
    ValidRequest (List.replicate 254 0) [102, 111, 111] 32768 3 ∧
    ∃ out, mktap okSys (List.replicate 254 0) [102, 111, 111] 32768 3 = success out ∧
      ∃ (hdr dat : List Byte),
        out = 19 :: 0 :: hdr ++ 0 :: 0 :: dat ∧
        le16 19 0 = 19 ∧ hdr.length = 19 ∧
        dat = 255 :: List.replicate 254 0 ++ [xorFrom 255 (List.replicate 254 0)] ∧
        dat.length = 254 + 2 ∧ le16 0 0 ≠ dat.length ∧
        out.length = 254 + 25 := by
  have hv := valid_replicate 254 (by decide) (by decide)
  have h256 : uchar (((List.replicate 254 (0 : Byte)).length : Int) + 2) = 0 := by
    rw [List.length_replicate]
    decide
  have hb := image_blocks (List.replicate 254 0) [102, 111, 111] 32768 3
  rw [h256] at hb
  have hd : (255 :: List.replicate 254 (0 : Byte) ++ [xorFrom 255 (List.replicate 254 0)]).length
      = 254 + 2 := by
    simp only [List.cons_append, List.length_cons, List.length_append, List.length_replicate,
      List.length_nil]
  refine ⟨hv, _, mktap_valid hv, _, _, hb, rfl, ?_, rfl, hd, ?_, ?_⟩
  · simp only [List.length_append, headerBody_length, List.length_cons, List.length_nil]
  · rw [hd]
    decide
  · rw [image_length, List.length_replicate]

/-! ## Independence of the two checksums -/

/-- C15: two valid requests with the same payload both succeed and have the same
data block (all the output from offset 21 on, data checksum included), whatever
their names, types and load addresses. -/
theorem data_block_independent (payload name1 name2 : List Byte)
    (address1 address2 type1 type2 : Int)
    (h1 : ValidRequest payload name1 address1 type1)
    (h2 : ValidRequest payload name2 address2 type2) :
    ∃ out1 out2, mktap okSys payload name1 address1 type1 = success out1 ∧
      mktap okSys payload name2 address2 type2 = success out2 ∧
      out1.drop 21 = out2.drop 21 := by
  refine ⟨_, _, mktap_valid h1, mktap_valid h2, ?_⟩
  rw [image_drop21, image_drop21]

theorem data_block_independent_witness :
    ValidRequest [1, 2, 3] [102, 111, 111] 32768 3 ∧
    ValidRequest [1, 2, 3] [98, 97, 114, 49] 16384 0 ∧
    ∃ out1 out2, mktap okSys [1, 2, 3] [102, 111, 111] 32768 3 = success out1 ∧
      mktap okSys [1, 2, 3] [98, 97, 114, 49] 16384 0 = success out2 ∧
      out1.drop 21 = out2.drop 21 :=
  ⟨by decide, by decide,
    data_block_independent [1, 2, 3] [102, 111, 111] [98, 97, 114, 49] 32768 16384 3 0
      (by decide) (by decide)⟩

/-! ## The size test comes first -/

/-- C16: whenever the size test refuses the request (empty payload, more than 49152
bytes, or `load_address + len(payload) > 65535`), whatever the outcomes of the
system calls, `mktap` returns failure, issues no `write` call and does not open the
output file, whose previous content is therefore unchanged; when the input file
could be opened and measured, the diagnostic is the invalid-size one. -/
theorem size_rejected_before_output (sys : Sys) (input name : List Byte) (address type : Int)
    (h : input.length = 0 ∨ input.length > 49152 ∨ address + (input.length : Int) > 65535) :
    (mktap sys input name address type).status = EXIT_FAILURE ∧
      (mktap sys input name address type).file = none ∧
      (mktap sys input name address type).writes = 0 ∧
      (sys.openInput = true → sys.fstat = true →
        mktap sys input name address type = rejected) := by
  have hs : SizeInvalid input address := (sizeInvalid_iff input address).mpr h
  have hr : sys.openInput = true → sys.fstat = true →
      mktap sys input name address type = rejected :=
    fun ho hf => mktap_sizeInvalid sys input name address type ho hf hs
  by_cases ho : sys.openInput = true
  · by_cases hf : sys.fstat = true
    · rw [hr ho hf]
      exact ⟨rfl, rfl, rfl, fun _ _ => rfl⟩
    · have hf2 : sys.fstat = false := by simpa using hf
      have hm : mktap sys input name address type
          = { status := EXIT_FAILURE, stderr := some Diag.stat, file := none, writes := 0 } := by
        unfold mktap
        simp [ho, hf2]
      rw [hm]
      exact ⟨rfl, rfl, rfl, fun _ hf3 => absurd hf3 hf⟩
  · have ho2 : sys.openInput = false := by simpa using ho
    have hm : mktap sys input name address type
        = { status := EXIT_FAILURE, stderr := some Diag.cannotOpen, file := none,
            writes := 0 } := by
      unfold mktap
      simp [ho2]
    rw [hm]
    exact ⟨rfl, rfl, rfl, fun ho3 _ => absurd ho3 ho⟩

theorem size_rejected_before_output_witness :
    ((([] : List Byte).length = 0 ∨ ([] : List Byte).length > 49152 ∨
      (16384 : Int) + (([] : List Byte).length : Int) > 65535)) ∧
    ((mktap okSys [] [102, 111, 111] 16384 3).status = EXIT_FAILURE ∧
      (mktap okSys [] [102, 111, 111] 16384 3).file = none ∧
      (mktap okSys [] [102, 111, 111] 16384 3).writes = 0 ∧
      (okSys.openInput = true → okSys.fstat = true →
        mktap okSys [] [102, 111, 111] 16384 3 = rejected)) :=
  ⟨by decide, size_rejected_before_output okSys [] [102, 111, 111] 16384 3 (by decide)⟩

/-! ## Self-check of the blocks -/

theorem byte_xor_self (b : Byte) : b ^^^ b = 0 := by
  apply Fin.ext
  show (b.val ^^^ b.val) % 256 = 0
  rw [Nat.xor_self]

theorem xorFrom_concat (init c : Byte) (l : List Byte) :
    xorFrom init (l ++ [c]) = xorFrom init l ^^^ c := by
  simp [xorFrom, List.foldl_append]

theorem image_header19 (input name : List Byte) (address type : Int) :
    ((image input name address type).drop 2).take 19
      = headerBody name address type input.length ++
          [xorFrom 0 (headerBody name address type input.length)] := by
  rw [image_blocks]
  show List.take 19 ((headerBody name address type input.length ++
      [xorFrom 0 (headerBody name address type input.length)]) ++ _) = _
  have hl : (headerBody name address type input.length ++
      [xorFrom 0 (headerBody name address type input.length)]).length = 19 := by
    simp [headerBody_length]
  exact List.take_left' hl

theorem image_drop23 (input name : List Byte) (address type : Int) :
    (image input name address type).drop 23 = 255 :: (input ++ [xorFrom 255 input]) := by
  have h : (image input name address type).drop 23
      = ((image input name address type).drop 21).drop 2 := by
    rw [List.drop_drop]
  rw [h, image_drop21]
  rfl

/-- C17: for every valid request the run succeeds and each block checks itself:
the 19 bytes after the length field of the header block, checksum included (offsets
2..20), are all there and their XOR is 0, and the `len(payload) + 2` bytes after the
length field of the data block, checksum included (offset 23 to the end, the last
byte of the `len(payload) + 25` of the output), are all there and their XOR is 0. -/
theorem blocks_self_check (payload name : List Byte) (address type : Int)
    (h : ValidRequest payload name address type) :
    ∃ out, mktap okSys payload name address type = success out ∧
      out.length = payload.length + 25 ∧
      ((out.drop 2).take 19).length = 19 ∧ xorFrom 0 ((out.drop 2).take 19) = 0 ∧
      (out.drop 23).length = payload.length + 2 ∧ xorFrom 0 (out.drop 23) = 0 := by
  refine ⟨_, mktap_valid h, image_length _ _ _ _, ?_, ?_, ?_, ?_⟩
  · rw [image_header19]
    simp only [List.length_append, headerBody_length, List.length_cons, List.length_nil]
  · rw [image_header19, xorFrom_concat, byte_xor_self]
  · rw [image_drop23]
    simp only [List.length_cons, List.length_append, List.length_nil]
  · rw [image_drop23]
    have h0 : xorFrom 0 (255 :: (payload ++ [xorFrom 255 payload]))
        = xorFrom ((0 : Byte) ^^^ 255) (payload ++ [xorFrom 255 payload]) := rfl
    rw [h0, zero_xor_byte, xorFrom_concat, byte_xor_self]

theorem blocks_self_check_witness :
    ValidRequest [1, 2, 3] [102, 111, 111] 32768 3 ∧
    ∃ out, mktap okSys [1, 2, 3] [102, 111, 111] 32768 3 = success out ∧
      out.length = ([1, 2, 3] : List Byte).length + 25 ∧
      ((out.drop 2).take 19).length = 19 ∧ xorFrom 0 ((out.drop 2).take 19) = 0 ∧
      (out.drop 23).length = ([1, 2, 3] : List Byte).length + 2 ∧
      xorFrom 0 (out.drop 23) = 0 :=
  ⟨by decide, blocks_self_check [1, 2, 3] [102, 111, 111] 32768 3 (by decide)⟩

/-! ## The size test under the address check of `main` -/

theorem mktap_sizeInvalid_status (sys : Sys) (input name : List Byte) (address type : Int)
    (hs : SizeInvalid input address) :
    (mktap sys input name address type).status = EXIT_FAILURE ∧
      (mktap sys input name address type).file = none := by
  unfold SizeInvalid at hs
  unfold mktap
  by_cases ho : sys.openInput = false
  · simp [ho]
  · by_cases hf : sys.fstat = false
    · simp [ho, hf]
    · rw [if_neg ho, if_neg hf]
      simp only
      rw [if_pos hs]
      exact ⟨rfl, rfl⟩

/-- C18: when the load address has passed the check of `main`
(`16384 <= address <= 65535`), a payload of 49152 bytes or more fails the test
`address + len(payload) > 65535`, so it is refused and never encoded for any
outcome of the system calls; a run that succeeds has a payload of 1 to 49151 bytes;
and with every system call succeeding the run fails exactly when the payload is
empty or `address + len(payload) > 65535`: the test `len(payload) > 49152` never
decides. -/
theorem size_limit_under_address_check (sys : Sys) (input name : List Byte)
    (address type : Int) (ha : addressAccepted address) :
    (49152 ≤ input.length → address + (input.length : Int) > 65535) ∧
      (49152 ≤ input.length →
        (mktap sys input name address type).status = EXIT_FAILURE ∧
          (mktap sys input name address type).file = none) ∧
      ((mktap sys input name address type).status = EXIT_SUCCESS →
        1 ≤ input.length ∧ input.length ≤ 49151) ∧
      ((mktap okSys input name address type).status = EXIT_FAILURE ↔
        (input.length = 0 ∨ address + (input.length : Int) > 65535)) := by
  unfold addressAccepted at ha
  have hne : EXIT_FAILURE ≠ EXIT_SUCCESS := by decide
  refine ⟨fun hl => by omega, fun hl => ?_, fun hok => ?_, ?_⟩
  · apply mktap_sizeInvalid_status
    rw [sizeInvalid_iff]
    omega
  · by_cases hs : SizeInvalid input address
    · have hf := (mktap_sizeInvalid_status sys input name address type hs).1
      rw [hf] at hok
      exact absurd hok hne
    · rw [sizeInvalid_iff] at hs
      omega
  · by_cases hs : SizeInvalid input address
    · have hf := (mktap_sizeInvalid_status okSys input name address type hs).1
      rw [sizeInvalid_iff] at hs
      constructor
      · intro _
        omega
      · intro _
        exact hf
    · rw [mktap_okSys input name address type hs]
      rw [sizeInvalid_iff] at hs
      constructor
      · intro hf
        exact absurd hf.symm hne
      · intro hc
        omega

theorem size_limit_under_address_check_witness :
    addressAccepted 16384 ∧
    ((49152 ≤ ([1, 2, 3] : List Byte).length →
        (16384 : Int) + (([1, 2, 3] : List Byte).length : Int) > 65535) ∧
      (49152 ≤ ([1, 2, 3] : List Byte).length →
        (mktap okSys [1, 2, 3] [102, 111, 111] 16384 3).status = EXIT_FAILURE ∧
          (mktap okSys [1, 2, 3] [102, 111, 111] 16384 3).file = none) ∧
      ((mktap okSys [1, 2, 3] [102, 111, 111] 16384 3).status = EXIT_SUCCESS →
        1 ≤ ([1, 2, 3] : List Byte).length ∧ ([1, 2, 3] : List Byte).length ≤ 49151) ∧
      ((mktap okSys [1, 2, 3] [102, 111, 111] 16384 3).status = EXIT_FAILURE ↔
        (([1, 2, 3] : List Byte).length = 0 ∨
          (16384 : Int) + (([1, 2, 3] : List Byte).length : Int) > 65535))) :=
  ⟨by decide,
    size_limit_under_address_check okSys [1, 2, 3] [102, 111, 111] 16384 3 (by decide)⟩

/-! ## The case of the name -/

theorem toupper_val (c : Byte) :
    (toupper c).val = if 97 ≤ c.val ∧ c.val ≤ 122 then c.val - 32 else c.val := by
  unfold toupper
  split <;> rfl

theorem toupper_idem (c : Byte) : toupper (toupper c) = toupper c := by
  apply Fin.ext
  rw [toupper_val (toupper c), toupper_val c]
  split_ifs <;> omega

theorem snprintf_name_map_toupper (name : List Byte) :
    snprintf_name (name.map toupper) = (snprintf_name name).map toupper := by
  simp only [snprintf_name, List.length_map, List.map_take, List.map_append, List.map_replicate,
    toupper_space]

theorem name_bytes_map_toupper (name : List Byte) :
    (snprintf_name (name.map toupper)).map toupper = (snprintf_name name).map toupper := by
  rw [snprintf_name_map_toupper, List.map_map]
  apply List.map_congr_left
  intro c _
  exact toupper_idem c

theorem mktap_map_toupper (sys : Sys) (input name : List Byte) (address type : Int) :
    mktap sys input (name.map toupper) address type = mktap sys input name address type := by
  simp only [mktap, mktap_blocks, name_bytes_map_toupper]

/-- C19: the case of the name does not matter: for every valid request with an
ASCII name, the result with the upper-cased name is the result with the name,
whatever the outcomes of the system calls; without I/O failure both runs succeed
with the same output, header checksum (offset 20) included; and upper-casing the
upper-cased name changes nothing. -/
theorem name_case_insensitive (sys : Sys) (payload name : List Byte) (address type : Int)
    (h : ValidRequest payload name address type) (_hascii : ∀ c ∈ name, c.val < 128) :
    mktap sys payload (name.map toupper) address type = mktap sys payload name address type ∧
      (∃ out, mktap okSys payload name address type = success out ∧
        mktap okSys payload (name.map toupper) address type = success out ∧
        out[20]? = some (xorFrom 0 ((out.drop 2).take 18))) ∧
      (name.map toupper).map toupper = name.map toupper := by
  refine ⟨mktap_map_toupper sys payload name address type, ⟨_, mktap_valid h, ?_, ?_⟩, ?_⟩
  · rw [mktap_map_toupper]
    exact mktap_valid h
  · rw [image_header]
    show (image payload name address type)[20 + 0]? = _
    rw [← List.getElem?_drop, image_drop20]
    rfl
  · rw [List.map_map]
    apply List.map_congr_left
    intro c _
    exact toupper_idem c

theorem name_case_insensitive_witness :
    ValidRequest [1, 2, 3] [102, 79, 49] 32768 3 ∧
    (∀ c ∈ ([102, 79, 49] : List Byte), c.val < 128) ∧
    (mktap okSys [1, 2, 3] (List.map toupper [102, 79, 49]) 32768 3
        = mktap okSys [1, 2, 3] [102, 79, 49] 32768 3 ∧
      (∃ out, mktap okSys [1, 2, 3] [102, 79, 49] 32768 3 = success out ∧
        mktap okSys [1, 2, 3] (List.map toupper [102, 79, 49]) 32768 3 = success out ∧
        out[20]? = some (xorFrom 0 ((out.drop 2).take 18))) ∧
      List.map toupper (List.map toupper [102, 79, 49]) = List.map toupper [102, 79, 49]) :=
  ⟨by decide, ascii_sample,
    name_case_insensitive okSys [1, 2, 3] [102, 79, 49] 32768 3 (by decide) ascii_sample⟩

/-! ## Write failures -/

theorem fileOf_WRITE1_bind (sys : Sys) (data : Int) (sum : Bool) (t : Tape)
    (f : Tape → Except Tape Tape) :
    fileOf (WRITE1 sys data sum t >>= f) =
      onWrite (sys.write t.calls)
        (fileOf (f { data := t.data ++ [uchar data], calls := t.calls + 1,
                     checksum := if sum then t.checksum ^^^ uchar data else t.checksum }))
        (fun r => .error (t.data ++ [uchar data].take (min r ([uchar data].length - 1)),
          t.calls + 1)) := by
  cases hw : sys.write t.calls <;> cases sum <;>
    simp [WRITE1, __write1, __write, hw, onWrite, fileOf, bind, Except.bind]

theorem fileOf_WRITE1 (sys : Sys) (data : Int) (sum : Bool) (t : Tape) :
    fileOf (WRITE1 sys data sum t) =
      onWrite (sys.write t.calls) (.ok (t.data ++ [uchar data], t.calls + 1))
        (fun r => .error (t.data ++ [uchar data].take (min r ([uchar data].length - 1)),
          t.calls + 1)) := by
  cases hw : sys.write t.calls <;> cases sum <;>
    simp [WRITE1, __write1, __write, hw, onWrite, fileOf]

theorem fileOf_WRITE_bind (sys : Sys) (buf : List Byte) (size : Int) (sum : Bool) (t : Tape)
    (f : Tape → Except Tape Tape) :
    fileOf (WRITE sys buf size sum t >>= f) =
      onWrite (sys.write t.calls)
        (fileOf (f { data := t.data ++ buf.take size.toNat, calls := t.calls + 1,
                     checksum :=
                       if sum then
                         (buf.take size.toNat).foldl (fun acc b => acc ^^^ b) t.checksum
                       else t.checksum }))
        (fun r => .error (t.data ++
          (buf.take size.toNat).take (min r ((buf.take size.toNat).length - 1)),
          t.calls + 1)) := by
  have hnn : ∀ n : Nat, ¬ ((n : Int) < 0) := fun n => by omega
  cases hw : sys.write t.calls <;> cases sum <;>
    simp [WRITE, __write, hw, onWrite, fileOf, bind, Except.bind, hnn]

theorem mktap_blocks_writeSeq (sys : Sys) (input name : List Byte) (address type : Int) :
    fileOf (mktap_blocks sys (input ++ List.replicate (INPUT_MAX_SIZE - input.length) 0) name
        address type input.length { data := [], calls := 0, checksum := 0 })
      = writeSeq sys (writeCalls input name address type) [] 0 := by
  have hlen : ((snprintf_name name).map toupper).take 10
      = (snprintf_name name).map toupper := by
    apply List.take_of_length_le
    simp [snprintf_name_length]
  unfold mktap_blocks
  by_cases h0 : type = 0
  · simp [h0, fileOf_WRITE1_bind, fileOf_WRITE_bind, fileOf_WRITE1, writeSeq, writeCalls, hlen,
      headerBody, param1, uchar_val, uchar_castUChar, uchar_land_castUChar,
      uchar_shiftRight_castUChar, zero_xor_byte, List.foldl_append]
  · by_cases h3 : type = 3
    · simp [h3, fileOf_WRITE1_bind, fileOf_WRITE_bind, fileOf_WRITE1, writeSeq, writeCalls,
        hlen, headerBody, param1, uchar_val, uchar_castUChar, uchar_land_castUChar,
        uchar_shiftRight_castUChar, zero_xor_byte, List.foldl_append]
    · simp [h0, h3, fileOf_WRITE1_bind, fileOf_WRITE_bind, fileOf_WRITE1, writeSeq,
        writeCalls, hlen, headerBody, param1, uchar_val, uchar_castUChar,
        uchar_land_castUChar, uchar_shiftRight_castUChar, zero_xor_byte, List.foldl_append]

theorem writeSeq_fail (sys : Sys) :
    ∀ (bufs : List (List Byte)) (data : List Byte) (calls k r : Nat), k < bufs.length →
      (∀ i < k, sys.write (calls + i) = none) → sys.write (calls + k) = some r →
      writeSeq sys bufs data calls =
        .error (data ++ (bufs.take k).flatten ++
          (bufs.getD k []).take (min r ((bufs.getD k []).length - 1)), calls + k + 1) := by
  intro bufs
  induction bufs with
  | nil =>
    intro data calls k r hk
    simp at hk
  | cons buf rest ih =>
    intro data calls k r hk hbefore hfail
    cases k with
    | zero =>
      have hf : sys.write calls = some r := by simpa using hfail
      simp [writeSeq, hf, onWrite]
    | succ k =>
      have h0 : sys.write calls = none := by simpa using hbefore 0 (by omega)
      have hk2 : k < rest.length := by simpa using hk
      have hb : ∀ i < k, sys.write (calls + 1 + i) = none := by
        intro i hi
        have := hbefore (i + 1) (by omega)
        rwa [show calls + 1 + i = calls + (i + 1) by omega]
      have hf : sys.write (calls + 1 + k) = some r := by
        rwa [show calls + 1 + k = calls + (k + 1) by omega]
      have := ih (data ++ buf) (calls + 1) k r hk2 hb hf
      simp only [writeSeq, h0, onWrite, this, List.take_succ_cons, List.flatten_cons,
        List.getD_cons_succ, List.append_assoc]
      rw [show calls + 1 + k + 1 = calls + (k + 1) + 1 by omega]

theorem flatten_split (bufs : List (List Byte)) (k m : Nat) (hk : k < bufs.length)
    (hm : m < (bufs.getD k []).length) :
    ∃ rest, rest ≠ [] ∧
      bufs.flatten = (bufs.take k).flatten ++ (bufs.getD k []).take m ++ rest := by
  refine ⟨(bufs.getD k []).drop m ++ (bufs.drop (k + 1)).flatten, ?_, ?_⟩
  · intro hnil
    have h1 := (List.append_eq_nil.mp hnil).1
    have h2 := congrArg List.length h1
    simp only [List.length_drop, List.length_nil] at h2
    omega
  · have h1 : bufs = bufs.take k ++ bufs.getD k [] :: bufs.drop (k + 1) := by
      rw [List.getD_eq_getElem _ _ hk, ← List.drop_eq_getElem_cons hk, List.take_append_drop]
    have h2 := congrArg List.flatten h1
    rw [List.flatten_append, List.flatten_cons] at h2
    rw [h2, List.append_assoc, ← List.append_assoc (List.take m _), List.take_append_drop]

theorem writeCalls_length (input name : List Byte) (address type : Int) :
    (writeCalls input name address type).length = 17 := rfl

theorem writeCalls_flatten (input name : List Byte) (address type : Int) :
    (writeCalls input name address type).flatten = image input name address type := by
  simp [writeCalls, image, headerBody]

theorem writeCalls_ne_nil (input name : List Byte) (address type : Int) (hin : input ≠ [])
    (k : Nat) (hk : k < 17) : (writeCalls input name address type).getD k [] ≠ [] := by
  have hname : (snprintf_name name).map toupper ≠ [] := by
    intro h
    have := congrArg List.length h
    simp [snprintf_name_length] at this
  interval_cases k <;> simp [writeCalls, hin, hname]

theorem mktap_writeSeq (sys : Sys) (input name : List Byte) (address type : Int)
    (hopen : sys.openInput = true) (hstat : sys.fstat = true) (hread : sys.read = true)
    (hout : sys.openOutput = true) (hs : ¬ SizeInvalid input address) :
    mktap sys input name address type =
      match writeSeq sys (writeCalls input name address type) [] 0 with
      | .error p => { status := EXIT_FAILURE, stderr := none, file := some p.1, writes := p.2 }
      | .ok p => { status := EXIT_SUCCESS, stderr := none, file := some p.1, writes := p.2 } := by
  rw [← mktap_blocks_writeSeq]
  unfold SizeInvalid at hs
  unfold mktap
  simp only [hopen, hstat, hread, hout, Bool.true_eq_false, if_false, if_neg hs]
  cases mktap_blocks sys (input ++ List.replicate (INPUT_MAX_SIZE - input.length) 0) name
      address type input.length { data := [], calls := 0, checksum := 0 } <;> rfl

/-- C14, as the claim states it, fails: when the fifth `write` call, which is
given the 10 bytes of the name, is short and transfers 3 bytes, `mktap` returns
failure after 5 calls, and the file holds 7 bytes, not the 4 bytes of the first 4
calls. -/
theorem short_write_keeps_bytes :
    mktap shortNameWrite [1, 2, 3] [102, 111, 111] 32768 3
        = { status := EXIT_FAILURE, stderr := none, file := some [19, 0, 0, 3, 70, 79, 79],
            writes := 5 } ∧
      ((writeCalls [1, 2, 3] [102, 111, 111] 32768 3).take 4).flatten = [19, 0, 0, 3] ∧
      (mktap shortNameWrite [1, 2, 3] [102, 111, 111] 32768 3).file
        ≠ some ((writeCalls [1, 2, 3] [102, 111, 111] 32768 3).take 4).flatten := by
  decide

/-- C14, amended: when the size test passes, the files are opened and read, and the
`write` call of index `k` (counted from 0, so it is the `k+1`-th of the 17) is the
first that fails or is short, `mktap` returns failure having issued `k + 1` calls
and none after; the file holds the bytes of the first `k` calls followed by the
bytes `kept` that the failing call transferred, fewer than its buffer and none
when it transferred nothing or was given one byte; nothing is rolled back, and
these bytes are a proper prefix of the output of the run without failure. -/
theorem write_failure_aborts (sys : Sys) (input name : List Byte) (address type : Int)
    (k r : Nat) (hopen : sys.openInput = true) (hstat : sys.fstat = true)
    (hread : sys.read = true) (hout : sys.openOutput = true)
    (hsize : ¬ (input.length = 0 ∨ input.length > 49152 ∨
      address + (input.length : Int) > 65535))
    (hk : k < 17) (hbefore : ∀ i < k, sys.write i = none) (hfail : sys.write k = some r) :
    ∃ kept rest : List Byte,
      mktap sys input name address type =
        { status := EXIT_FAILURE, stderr := none,
          file := some (((writeCalls input name address type).take k).flatten ++ kept),
          writes := k + 1 } ∧
      kept = ((writeCalls input name address type).getD k []).take
        (min r (((writeCalls input name address type).getD k []).length - 1)) ∧
      kept.length < ((writeCalls input name address type).getD k []).length ∧
      (r = 0 ∨ ((writeCalls input name address type).getD k []).length = 1 → kept = []) ∧
      rest ≠ [] ∧
      mktap okSys input name address type =
        success (((writeCalls input name address type).take k).flatten ++ kept ++ rest) ∧
      (writeCalls input name address type).flatten =
        ((writeCalls input name address type).take k).flatten ++ kept ++ rest := by
  have hs : ¬ SizeInvalid input address := by
    rw [sizeInvalid_iff]
    exact hsize
  have hin : input ≠ [] := by
    intro h
    apply hsize
    left
    rw [h]
    rfl
  have hne := writeCalls_ne_nil input name address type hin k hk
  have hpos : 0 < ((writeCalls input name address type).getD k []).length :=
    List.length_pos.mpr hne
  have hm : min r (((writeCalls input name address type).getD k []).length - 1)
      < ((writeCalls input name address type).getD k []).length := by omega
  obtain ⟨rest, hrest, hsplit⟩ := flatten_split (writeCalls input name address type) k _
    (by rw [writeCalls_length]; exact hk) hm
  have hw := writeSeq_fail sys (writeCalls input name address type) [] 0 k r
    (by rw [writeCalls_length]; exact hk) (by simpa using hbefore) (by simpa using hfail)
  refine ⟨_, rest, ?_, rfl, ?_, ?_, hrest, ?_, hsplit⟩
  · rw [mktap_writeSeq sys input name address type hopen hstat hread hout hs, hw]
    simp
  · rw [List.length_take]
    omega
  · intro hc
    apply List.take_eq_nil_iff.mpr
    left
    omega
  · rw [mktap_okSys input name address type hs, ← hsplit, writeCalls_flatten]

theorem write_failure_aborts_witness :
    (∀ i < 4, shortNameWrite.write i = none) ∧ shortNameWrite.write 4 = some 3 ∧
    ∃ kept rest : List Byte,
      mktap shortNameWrite [1, 2, 3] [102, 111, 111] 32768 3 =
        { status := EXIT_FAILURE, stderr := none,
          file := some (((writeCalls [1, 2, 3] [102, 111, 111] 32768 3).take 4).flatten ++ kept),
          writes := 4 + 1 } ∧
      kept = ((writeCalls [1, 2, 3] [102, 111, 111] 32768 3).getD 4 []).take
        (min 3 (((writeCalls [1, 2, 3] [102, 111, 111] 32768 3).getD 4 []).length - 1)) ∧
      kept.length < ((writeCalls [1, 2, 3] [102, 111, 111] 32768 3).getD 4 []).length ∧
      (3 = 0 ∨ ((writeCalls [1, 2, 3] [102, 111, 111] 32768 3).getD 4 []).length = 1 →
        kept = []) ∧
      rest ≠ [] ∧
      mktap okSys [1, 2, 3] [102, 111, 111] 32768 3 =
        success (((writeCalls [1, 2, 3] [102, 111, 111] 32768 3).take 4).flatten ++ kept
          ++ rest) ∧
      (writeCalls [1, 2, 3] [102, 111, 111] 32768 3).flatten =
        ((writeCalls [1, 2, 3] [102, 111, 111] 32768 3).take 4).flatten ++ kept ++ rest :=
  ⟨by decide, by decide,
    write_failure_aborts shortNameWrite [1, 2, 3] [102, 111, 111] 32768 3 4 3 rfl rfl rfl rfl
      (by decide) (by decide) (by decide) (by decide)⟩

end Mktap
